import Mathlib

/-!
Verification of the terminal view adapter (`src/lib/ui/XTerm.svelte`).

The file embeds, as executable Lean definitions, the parts of the component
that the specification talks about:

* the preload write buffer (`write`, the `onMount` flush loop);
* the xterm suppression patch (`patchXTerm`);
* the deduplicated font-loading gate (`waitForFonts`), as a small cooperative
  scheduler with explicit suspension points;
* the drag handlers (`handleDrag`, `handleDragEnd`);
* the mousedown propagation through the component's markup;
* the binary paste path (`Buffer.from(data, "binary")`);
* the reactive resize statement and the mount-time sizing.

Theorems about these definitions settle the specification's claims.
-/

namespace XTermView

/-! ## Write buffer

`write = (data) => { if (!term) preloadBuffer.push(data); else term.write(data); }`
The engine (`term`) is modelled by the ordered list of chunks written to it;
`none` means the terminal has not been constructed yet. -/

structure TermView where
  term : Option (List String)
  preloadBuffer : List String
deriving Repr, DecidableEq

def TermView.start : TermView := { term := none, preloadBuffer := [] }

/-- The public bound `write` function of the component. -/
def write (v : TermView) (data : String) : TermView :=
  match v.term with
  | none => { v with preloadBuffer := v.preloadBuffer ++ [data] }
  | some chunks => { v with term := some (chunks ++ [data]) }

/-- A direct `term.write(data)` call on a constructed terminal (used by the
`onMount` flush loop); it never touches the preload buffer. -/
def termWrite (v : TermView) (data : String) : TermView :=
  match v.term with
  | none => v
  | some chunks => { v with term := some (chunks ++ [data]) }

/-- The `onMount` body as it affects the write path: `term = new Terminal(...)`
followed by `for (const data of preloadBuffer) term.write(data)`.  The source
does not clear `preloadBuffer` after the loop. -/
def mountFlush (v : TermView) : TermView :=
  v.preloadBuffer.foldl termWrite { v with term := some [] }

inductive Ev where
  | write (data : String)
  | mount
deriving Repr, DecidableEq

def step (v : TermView) : Ev → TermView
  | .write data => write v data
  | .mount => mountFlush v

def run (evs : List Ev) : TermView :=
  evs.foldl step TermView.start

lemma foldl_termWrite_some (l : List String) (t buf : List String) :
    l.foldl termWrite { term := some t, preloadBuffer := buf }
      = { term := some (t ++ l), preloadBuffer := buf } := by
  induction l generalizing t with
  | nil => simp
  | cons a l ih =>
      simp only [List.foldl_cons, termWrite]
      rw [ih]
      simp

lemma foldl_write_none (pre : List String) (buf : List String) :
    (pre.map Ev.write).foldl step { term := none, preloadBuffer := buf }
      = { term := none, preloadBuffer := buf ++ pre } := by
  induction pre generalizing buf with
  | nil => simp
  | cons a pre ih =>
      simp only [List.map_cons, List.foldl_cons, step, write]
      rw [ih]
      simp

lemma foldl_write_some (post : List String) (t buf : List String) :
    (post.map Ev.write).foldl step { term := some t, preloadBuffer := buf }
      = { term := some (t ++ post), preloadBuffer := buf } := by
  induction post generalizing t with
  | nil => simp
  | cons a post ih =>
      simp only [List.map_cons, List.foldl_cons, step, write]
      rw [ih]
      simp

lemma mountFlush_none (buf : List String) :
    mountFlush { term := none, preloadBuffer := buf }
      = { term := some buf, preloadBuffer := buf } := by
  simp [mountFlush, foldl_termWrite_some]

/-- Claim C1: chunks written through the public `write` function before the
terminal is constructed are queued, then replayed in FIFO order by the mount
flush, and chunks written afterwards go straight to the terminal: the terminal
receives exactly the sequence `pre ++ post`, each chunk once, in call order. -/
theorem write_preserves_order_exactly_once (pre post : List String) :
    (run (pre.map Ev.write ++ Ev.mount :: post.map Ev.write)).term
      = some (pre ++ post) := by
  unfold run TermView.start
  rw [List.foldl_append, foldl_write_none, List.foldl_cons]
  show ((post.map Ev.write).foldl step
    (mountFlush { term := none, preloadBuffer := [] ++ pre })).term = _
  rw [List.nil_append, mountFlush_none, foldl_write_some]

/-- Claim C4 counterexample: the flush step does not leave the pending queue
empty.  After one buffered write and the mount flush, `preloadBuffer` still
holds the chunk; the source's flush loop never clears the array. -/
theorem flush_leaves_queue_nonempty :
    (run [Ev.write "a", Ev.mount]).preloadBuffer = ["a"] ∧
      (run [Ev.write "a", Ev.mount]).preloadBuffer ≠ [] := by
  constructor <;> decide

/-- Claim C4 (amended): the flush delivers every queued chunk to the terminal
in enqueue order and the queue, although never cleared, is never consulted
again — writes after the flush bypass it and go straight to the terminal, so
no chunk is delivered twice: the terminal holds exactly `pre ++ post` while
the buffer still holds exactly `pre`. -/
theorem flush_delivers_in_order_queue_unread (pre post : List String) :
    (run (pre.map Ev.write ++ Ev.mount :: post.map Ev.write)).term
        = some (pre ++ post) ∧
      (run (pre.map Ev.write ++ Ev.mount :: post.map Ev.write)).preloadBuffer
        = pre := by
  unfold run TermView.start
  rw [List.foldl_append, foldl_write_none, List.foldl_cons]
  show ((post.map Ev.write).foldl step
      (mountFlush { term := none, preloadBuffer := [] ++ pre })).term = _ ∧
    ((post.map Ev.write).foldl step
      (mountFlush { term := none, preloadBuffer := [] ++ pre })).preloadBuffer = _
  rw [List.nil_append, mountFlush_none, foldl_write_some]
  exact ⟨rfl, rfl⟩

/-! ## Suppression patch

`patchXTerm` replaces internal handlers on the shared `Terminal` and
`InputHandler` prototypes.  A handler slot is `Option`-valued: `none` models a
missing property on the prototype (reading it in JS yields `undefined`).
Calling a handler may emit response bytes (`triggerDataEvent`); the result of
calling a missing handler is a `TypeError`, modelled with `Except`. -/

/-- Result of the `unhook` handler: the new `_data` buffer of the input
handler, the boolean return value, and any response bytes emitted. -/
structure UnhookOut where
  data : List Nat
  ret : Bool
  response : List Nat
deriving Repr, DecidableEq

/-- The prototype slots `patchXTerm` touches.  Plain handlers map their input
to the response bytes they emit; `unhook` additionally acts on the handler's
`_data` buffer; `windowOptions` maps its params to a handled flag plus
response bytes, and may fail (so that a patched wrapper delegating to a
missing original is expressible). -/
structure Proto where
  handleColorEvent : Option (List Nat → List Nat)
  reportFocus : Option (List Nat → List Nat)
  unhook : Option (List Nat → UnhookOut)
  sendDeviceAttributesPrimary : Option (List Nat → List Nat)
  sendDeviceAttributesSecondary : Option (List Nat → List Nat)
  deviceStatus : Option (List Nat → List Nat)
  deviceStatusPrivate : Option (List Nat → List Nat)
  windowOptions : Option (List Nat → Except String (Bool × List Nat))

/-- An engine whose internals lack every handler name the patch expects. -/
def emptyProto : Proto :=
  { handleColorEvent := none
    reportFocus := none
    unhook := none
    sendDeviceAttributesPrimary := none
    sendDeviceAttributesSecondary := none
    deviceStatus := none
    deviceStatusPrivate := none
    windowOptions := none }

/-- Calling a plain handler slot: a missing property is `undefined`, and
invoking it raises a `TypeError`. -/
def callResp (h : Option (List Nat → List Nat)) (params : List Nat) :
    Except String (List Nat) :=
  match h with
  | some f => .ok (f params)
  | none => .error "TypeError"

def callUnhook (h : Option (List Nat → UnhookOut)) (d : List Nat) :
    Except String UnhookOut :=
  match h with
  | some f => .ok (f d)
  | none => .error "TypeError"

def callWindowOptions (h : Option (List Nat → Except String (Bool × List Nat)))
    (params : List Nat) : Except String (Bool × List Nat) :=
  match h with
  | some f => f params
  | none => .error "TypeError"

/-- The replacement for `windowOptions`: `params.params[0] === 18` is
short-circuited to `true` with no response; anything else calls the original
captured before the replacement (`windowOptions.call(this, params)`). -/
def patchedWindowOptions
    (orig : Option (List Nat → Except String (Bool × List Nat))) :
    List Nat → Except String (Bool × List Nat) :=
  fun params =>
    if params.headD 0 = 18 then .ok (true, [])
    else
      match orig with
      | some f => f params
      | none => .error "TypeError"

/-- The module-level `patched` guard together with the shared prototypes: the
patch mutates the engine class, so its effect is visible to every instance. -/
structure PatchState where
  patched : Bool
  proto : Proto

/-- `patchXTerm`: returns immediately once `patched` is set, otherwise
replaces each suppressed handler with one that emits no response and wraps
`windowOptions` around the captured original.  In JS each replacement is a
property assignment, which succeeds whether or not the property existed. -/
def patchXTerm (s : PatchState) : PatchState :=
  if s.patched then s
  else
    { patched := true
      proto :=
        { handleColorEvent := some fun _ => []
          reportFocus := some fun _ => []
          unhook := some fun _ => { data := [], ret := true, response := [] }
          sendDeviceAttributesPrimary := some fun _ => []
          sendDeviceAttributesSecondary := some fun _ => []
          deviceStatus := some fun _ => []
          deviceStatusPrivate := some fun _ => []
          windowOptions := some (patchedWindowOptions s.proto.windowOptions) } }

/-- `patchXTerm` as a fallible operation: its body consists of property reads
and assignments only, none of which can throw, so it always succeeds. -/
def patchXTermE (s : PatchState) : Except String PatchState :=
  .ok (patchXTerm s)

/-- Claim C2: after the patch, every handler in the suppressed-query set
(color event, focus report, unhook, primary/secondary device attributes,
device status public and private) emits no response bytes — `unhook` also
resets the handler's data buffer and returns `true` — while `windowOptions`
returns `true` with no response exactly when the first sub-parameter is 18
and otherwise delegates to the engine's original handler on the same
arguments. -/
theorem patch_suppresses_queries (p : Proto) (params d : List Nat) :
    callResp ((patchXTerm ⟨false, p⟩).proto.handleColorEvent) params = .ok [] ∧
    callResp ((patchXTerm ⟨false, p⟩).proto.reportFocus) params = .ok [] ∧
    callUnhook ((patchXTerm ⟨false, p⟩).proto.unhook) d
      = .ok { data := [], ret := true, response := [] } ∧
    callResp ((patchXTerm ⟨false, p⟩).proto.sendDeviceAttributesPrimary) params
      = .ok [] ∧
    callResp ((patchXTerm ⟨false, p⟩).proto.sendDeviceAttributesSecondary) params
      = .ok [] ∧
    callResp ((patchXTerm ⟨false, p⟩).proto.deviceStatus) params = .ok [] ∧
    callResp ((patchXTerm ⟨false, p⟩).proto.deviceStatusPrivate) params = .ok [] ∧
    callWindowOptions ((patchXTerm ⟨false, p⟩).proto.windowOptions) params
      = (if params.headD 0 = 18 then .ok (true, [])
         else callWindowOptions p.windowOptions params) := by
  refine ⟨rfl, rfl, rfl, rfl, rfl, rfl, rfl, ?_⟩
  show patchedWindowOptions p.windowOptions params = _
  unfold patchedWindowOptions
  by_cases h : params.headD 0 = 18
  · rw [if_pos h, if_pos h]
  · rw [if_neg h, if_neg h]
    cases p.windowOptions <;> rfl

/-- Claim C5 counterexample: applying the patch to an engine whose internals
lack every expected handler name does not fail — the assignments silently
install the replacements, so no detectable error is raised at
patch-application time. -/
theorem patch_missing_handlers_no_error :
    (patchXTermE ⟨false, emptyProto⟩).isOk = true := rfl

/-- Claim C5 (amended): patch application never fails at patch time: the
property assignments succeed unconditionally whether or not the expected
handler names exist.  When the original `windowOptions` was missing, the
failure surfaces only later, at call time, when the wrapper delegates for a
first sub-parameter other than 18. -/
theorem patch_apply_never_fails (p : Proto) :
    (patchXTermE ⟨false, p⟩).isOk = true ∧
      (p.windowOptions = none → ∀ params : List Nat, params.headD 0 ≠ 18 →
        callWindowOptions ((patchXTerm ⟨false, p⟩).proto.windowOptions) params
          = .error "TypeError") := by
  refine ⟨rfl, fun hn params h18 => ?_⟩
  show patchedWindowOptions p.windowOptions params = _
  unfold patchedWindowOptions
  rw [if_neg h18, hn]

theorem patch_apply_never_fails_witness :
    (patchXTermE ⟨false, emptyProto⟩).isOk = true ∧
      callWindowOptions ((patchXTerm ⟨false, emptyProto⟩).proto.windowOptions) [0]
        = .error "TypeError" :=
  ⟨(patch_apply_never_fails emptyProto).1,
   (patch_apply_never_fails emptyProto).2 rfl [0] (by decide)⟩

/-- Claim C8: the `patched` boolean makes `patchXTerm` idempotent — a second
application (from the same or another instance of the shared engine class)
returns the state unchanged, replaces no handler a second time and throws no
exception; the replacements live on the class prototypes, hence apply to
every instance. -/
theorem patchXTerm_idempotent (s : PatchState) :
    patchXTerm (patchXTerm s) = patchXTerm s ∧
      patchXTermE (patchXTerm s) = .ok (patchXTerm s) := by
  refine ⟨?_, ?_⟩
  · by_cases h : s.patched <;> simp [patchXTerm, h]
  · by_cases h : s.patched <;> simp [patchXTermE, patchXTerm, h]

/-! ## Font readiness gate

`waitForFonts` is a closure over `state : "initial" | "loading" | "loaded"`
and a `waitlist`.  Each caller is modelled as a coroutine with explicit
suspension points, one per `await` in the source:

* `start` — about to execute the body from the top;
* `afterImport` — suspended at `await import("fontfaceobserver")` (the body
  checks `state` and, in the `"initial"` branch, suspends on the import
  **before** assigning `state = "loading"`);
* `afterLoad` — has set `state = "loading"` and started a FontFaceObserver
  load (counted in `loadsStarted`), suspended awaiting it;
* `waiting` — pushed its `resolve` onto the waitlist;
* `done` — returned.

A schedule is the list of caller ids picked by the event loop; each pick runs
one caller up to its next suspension point or return. -/

inductive FontState where
  | initial
  | loading
  | loaded
deriving Repr, DecidableEq

inductive CallerPos where
  | start
  | afterImport
  | afterLoad
  | waiting
  | done
deriving Repr, DecidableEq

structure GateState where
  fontState : FontState
  waitlist : List Nat
  loadsStarted : Nat
  callers : List CallerPos
deriving Repr, DecidableEq

/-- Draining the waitlist: `for (const fn of waitlist) fn()` resumes each
registered caller (resolving an already-settled promise is a no-op). -/
def drain (wl : List Nat) (cs : List CallerPos) : List CallerPos :=
  wl.foldl
    (fun acc i => if acc.getD i .done = .waiting then acc.set i .done else acc)
    cs

/-- One cooperative step of caller `i` inside `waitForFonts`. -/
def gateStep (s : GateState) (i : Nat) : GateState :=
  match s.callers.getD i .done with
  | .start =>
      match s.fontState with
      | .loaded => { s with callers := s.callers.set i .done }
      | .initial => { s with callers := s.callers.set i .afterImport }
      | .loading =>
          { s with waitlist := s.waitlist ++ [i]
                   callers := s.callers.set i .waiting }
  | .afterImport =>
      { s with fontState := .loading
               loadsStarted := s.loadsStarted + 1
               callers := s.callers.set i .afterLoad }
  | .afterLoad =>
      { s with fontState := .loaded
               callers := (drain s.waitlist s.callers).set i .done }
  | .waiting => s
  | .done => s

def gateRun (n : Nat) (sched : List Nat) : GateState :=
  sched.foldl gateStep
    { fontState := .initial
      waitlist := []
      loadsStarted := 0
      callers := List.replicate n .start }

/-- Claim C3 evaluated at its failing interleaving: when a second caller
enters `waitForFonts` while the first is still suspended on
`await import("fontfaceobserver")`, both observe `state === "initial"` (the
transition to `"loading"` happens only after that await) and both start a
FontFaceObserver load, so the font-load operation runs twice.  Under the
serialized schedule the load is started once, as intended. -/
theorem waitForFonts_double_load :
    (gateRun 2 [0, 1, 0, 1]).loadsStarted = 2 ∧
      (gateRun 2 [0, 0, 0, 1]).loadsStarted = 1 := by
  constructor <;> rfl

/-! ## Drag handlers

`let [dragging, prevMouseX, prevMouseY] = [false, 0, 0]` with `handleDrag`
bound to header mousedown (with `start = true`) and window mousemove, and
`handleDragEnd` to window mouseup/mouseleave.  Emitted events carry
`pageX - prevMouseX` / `pageY - prevMouseY`. -/

structure DragState where
  dragging : Bool
  prevMouseX : Int
  prevMouseY : Int
deriving Repr, DecidableEq

inductive DragOut where
  | moving (x y : Int)
  | moveDone (x y : Int)
deriving Repr, DecidableEq

def dragInit : DragState := { dragging := false, prevMouseX := 0, prevMouseY := 0 }

/-- `handleDrag(event, start)`: on `start` records the pointer position and
sets `dragging`; otherwise, while dragging, dispatches a `moving` event with
the delta from the recorded start (which is never updated by moves). -/
def handleDrag (s : DragState) (x y : Int) (start : Bool) :
    DragState × List DragOut :=
  if start then
    ({ dragging := true, prevMouseX := x, prevMouseY := y }, [])
  else if s.dragging then
    (s, [.moving (x - s.prevMouseX) (y - s.prevMouseY)])
  else (s, [])

/-- `handleDragEnd(event)`: returns without any event unless dragging,
otherwise dispatches one `move` event with the final cumulative delta and
clears `dragging`. -/
def handleDragEnd (s : DragState) (x y : Int) : DragState × List DragOut :=
  if s.dragging then
    ({ s with dragging := false },
     [.moveDone (x - s.prevMouseX) (y - s.prevMouseY)])
  else (s, [])

inductive DragEv where
  | press (x y : Int)
  | moveTo (x y : Int)
  | release (x y : Int)
deriving Repr, DecidableEq

def dragStep (s : DragState) : DragEv → DragState × List DragOut
  | .press x y => handleDrag s x y true
  | .moveTo x y => handleDrag s x y false
  | .release x y => handleDragEnd s x y

def dragRun (s : DragState) (evs : List DragEv) : DragState × List DragOut :=
  evs.foldl
    (fun acc e =>
      let r := dragStep acc.1 e
      (r.1, acc.2 ++ r.2))
    (s, [])

/-- Claim C6: press at (100,100), moves to (130,115) and (150,140), release
at (150,140) emit exactly two `moving` events with the cumulative deltas
(30,15) and (50,40) measured from the drag start, then exactly one `move`
event with delta (50,40) on release and none before it; and a release while
no drag is active emits nothing. -/
theorem drag_gesture_events :
    (dragRun dragInit
        [.press 100 100, .moveTo 130 115, .moveTo 150 140,
         .release 150 140]).2
      = [.moving 30 15, .moving 50 40, .moveDone 50 40] ∧
      ∀ x y : Int, (dragRun dragInit [.release x y]).2 = [] := by
  refine ⟨by decide, fun x y => ?_⟩
  simp [dragRun, dragStep, handleDragEnd, dragInit]

/-! ## Mousedown propagation through the markup

The container `div.term-container` has `on:mousedown={() => dispatch("focus")}`;
inside it, the header `div.flex.select-none` has
`on:mousedown={(event) => handleDrag(event, true)}`; inside the header, the
three control buttons (close / minus / plus) each carry
`on:mousedown|stopPropagation`, which stops the event from bubbling to the
header and container handlers.  None of the handlers inspects
`event.button`. -/

inductive UiNode where
  | container
  | header
  | ctlButton
deriving Repr, DecidableEq

inductive UiEv where
  | focus
  | dragStart
deriving Repr, DecidableEq, BEq

/-- Per-node mousedown behaviour: whether the handler stops propagation, and
the events its body dispatches.  The `event.button` value is ignored by every
handler in the source. -/
def nodeOnMousedown (_button : Nat) : UiNode → Bool × List UiEv
  | .ctlButton => (true, [])
  | .header => (false, [.dragStart])
  | .container => (false, [.focus])

/-- Places inside the view body a mousedown can target. -/
inductive Target where
  | termArea
  | headerBlank
  | titleArea
  | closeButton
  | minusButton
  | plusButton
deriving Repr, DecidableEq

/-- The bubbling path from the target to the component root, innermost
handler first, restricted to nodes that register a mousedown handler. -/
def propagationPath : Target → List UiNode
  | .termArea => [.container]
  | .headerBlank => [.header, .container]
  | .titleArea => [.header, .container]
  | .closeButton => [.ctlButton, .header, .container]
  | .minusButton => [.ctlButton, .header, .container]
  | .plusButton => [.ctlButton, .header, .container]

/-- Run the handlers along a bubbling path, honouring `stopPropagation`. -/
def bubble (button : Nat) : List UiNode → List UiEv
  | [] => []
  | n :: rest =>
      let r := nodeOnMousedown button n
      if r.1 then r.2 else r.2 ++ bubble button rest

/-- Dispatching a mousedown with the given `event.button` at a target. -/
def dispatchMousedown (t : Target) (button : Nat) : List UiEv :=
  bubble button (propagationPath t)

/-- Claim C7 counterexample: a primary-button press on the close control
emits no event at all — in particular zero `focus` events — because the
button's `stopPropagation` modifier keeps the mousedown from reaching the
container's focus handler. -/
theorem close_button_press_emits_no_focus :
    dispatchMousedown .closeButton 0 = [] ∧
      (dispatchMousedown .closeButton 0).count .focus = 0 := by
  constructor <;> rfl

/-- Claim C7 (amended): a mousedown anywhere in the view body emits exactly
one `focus` event — regardless of which mouse button, since no handler
inspects `event.button`, and regardless of drag state — except on the three
header control buttons, whose `stopPropagation` modifier prevents the
container handler from running, so those presses emit no `focus` event. -/
theorem focus_per_mousedown (t : Target) (button : Nat) :
    (dispatchMousedown t button).count .focus
      = (if t = .closeButton ∨ t = .minusButton ∨ t = .plusButton
         then 0 else 1) := by
  cases t <;> rfl

/-! ## Binary paste path

`term.onBinary((data) => dispatch("data", Buffer.from(data, "binary")))`.
A binary-mode string is a sequence of code points; `Buffer.from(s, "binary")`
(the latin1 decoder) keeps the low byte of each code point. -/

/-- `Buffer.from(s, "binary")` on the string's code points. -/
def bufferFromBinary (codepoints : List Nat) : List Nat :=
  codepoints.map (fun c => c % 256)

/-- The byte array dispatched in the `data` event by the `onBinary`
subscription. -/
def onBinaryEmit (codepoints : List Nat) : List Nat :=
  bufferFromBinary codepoints

/-- Claim C9: for every binary-mode paste string — each code point below 256,
as binary-mode strings are — the dispatched `data` event carries exactly the
corresponding bytes, one byte per character, unaltered. -/
theorem onBinary_byte_fidelity (s : List Nat) (h : ∀ c ∈ s, c < 256) :
    onBinaryEmit s = s := by
  unfold onBinaryEmit bufferFromBinary
  induction s with
  | nil => rfl
  | cons a s ih =>
      simp only [List.map_cons, List.cons.injEq]
      exact ⟨Nat.mod_eq_of_lt (h a (List.mem_cons_self a s)),
        ih fun c hc => h c (List.mem_cons_of_mem a hc)⟩

theorem onBinary_byte_fidelity_witness :
    (∀ c ∈ [255, 0, 65], c < 256) ∧ onBinaryEmit [255, 0, 65] = [255, 0, 65] :=
  ⟨by decide, onBinary_byte_fidelity [255, 0, 65] (by decide)⟩

/-! ## Reactive resize

`$: term?.resize(cols, rows)` reruns whenever `cols` or `rows` change: while
`term` is `null` the optional chain is a no-op; once `term` exists it resizes
the live engine.  During `onMount`, right after `term.open(termEl)`, the
source calls `term.resize(cols, rows)` with the current dimensions.  The
engine is modelled by the ordered list of `resize(cols, rows)` calls it has
received. -/

structure ResizeModel where
  term : Option (List (Nat × Nat))
  cols : Nat
  rows : Nat
deriving Repr, DecidableEq

/-- The reactive statement `$: term?.resize(cols, rows)`. -/
def reactiveResize (m : ResizeModel) : ResizeModel :=
  match m.term with
  | none => m
  | some calls => { m with term := some (calls ++ [(m.cols, m.rows)]) }

/-- Updating the `cols`/`rows` props, which triggers the reactive
statement. -/
def updateDims (m : ResizeModel) (c r : Nat) : ResizeModel :=
  reactiveResize { m with cols := c, rows := r }

/-- The mount step as it affects sizing: the terminal is constructed and
`term.resize(cols, rows)` is called with the then-current dimensions. -/
def mountResize (m : ResizeModel) : ResizeModel :=
  { m with term := some [(m.cols, m.rows)] }

inductive REv where
  | update (c r : Nat)
  | mount
deriving Repr, DecidableEq

def rstep (m : ResizeModel) : REv → ResizeModel
  | .update c r => updateDims m c r
  | .mount => mountResize m

def rrun (m : ResizeModel) (evs : List REv) : ResizeModel :=
  evs.foldl rstep m

def rinit (c r : Nat) : ResizeModel := { term := none, cols := c, rows := r }

lemma rrun_update_none (pre : List (Nat × Nat)) (c r : Nat) :
    (pre.map fun p => REv.update p.1 p.2).foldl rstep (rinit c r)
      = rinit (pre.getLastD (c, r)).1 (pre.getLastD (c, r)).2 := by
  induction pre generalizing c r with
  | nil => rfl
  | cons a pre ih =>
      simp only [List.map_cons, List.foldl_cons]
      show (pre.map fun p => REv.update p.1 p.2).foldl rstep (rinit a.1 a.2) = _
      rw [ih, List.getLastD_cons]

lemma rrun_update_some (post : List (Nat × Nat)) (calls : List (Nat × Nat))
    (c r : Nat) :
    ((post.map fun p => REv.update p.1 p.2).foldl rstep
        { term := some calls, cols := c, rows := r }).term
      = some (calls ++ post) := by
  induction post generalizing calls c r with
  | nil => simp
  | cons a post ih =>
      simp only [List.map_cons, List.foldl_cons]
      show ((post.map fun p => REv.update p.1 p.2).foldl rstep
        { term := some (calls ++ [(a.1, a.2)]), cols := a.1, rows := a.2 }).term = _
      rw [ih]
      simp

/-- Claim C10: before the terminal is constructed every `cols`/`rows` update
runs the reactive statement as a harmless no-op (the model is a total
function and the engine records nothing); at mount the engine is sized once
with the then-current dimensions — the last pre-mount update, or the initial
props if there was none — and every update after mount resizes the live
engine, so the engine's resize history is exactly that first sizing followed
by the post-mount updates. -/
theorem resize_lifecycle (c0 r0 : Nat) (pre post : List (Nat × Nat)) :
    ((pre.map fun p => REv.update p.1 p.2).foldl rstep (rinit c0 r0)).term
        = none ∧
      (rrun (rinit c0 r0)
          ((pre.map fun p => REv.update p.1 p.2) ++ REv.mount ::
            (post.map fun p => REv.update p.1 p.2))).term
        = some (pre.getLastD (c0, r0) :: post) := by
  constructor
  · rw [rrun_update_none]; rfl
  · unfold rrun
    rw [List.foldl_append, rrun_update_none, List.foldl_cons]
    show ((post.map fun p => REv.update p.1 p.2).foldl rstep
      { term := some [((pre.getLastD (c0, r0)).1, (pre.getLastD (c0, r0)).2)]
        cols := (pre.getLastD (c0, r0)).1
        rows := (pre.getLastD (c0, r0)).2 }).term = _
    rw [rrun_update_some]
    rfl

end XTermView
